import Mathlib

/-!
Verification development for the mermaid-to-reactflow repository.

The repository converts Mermaid diagram text into a React Flow node/edge
graph.  The core under verification is:
  - the flowchart / sequence-diagram parsers and the pipeline entry point
    (src file defining parseMermaidCode, parseSequenceDiagram,
    createReactFlowElements, layoutSequenceDiagram, convertMermaidToReactFlow),
  - the markdown diagram extractor (extractMermaidDiagrams, detectDiagramType),
  - the saved-position overlay (applySavedPositions).

The source is TypeScript whose parsing is built on JavaScript regular
expressions.  We embed a small backtracking regex engine implementing the
JavaScript semantics actually exercised by the source patterns (leftmost
match, greedy / lazy single-character-class quantifiers, ordered
alternation of literals, capturing groups, greedy optional groups), and
transcribe every source pattern as an explicit term of that engine.

The dagre layout library is external to the repository; the two layout
phases that call it are abstracted as a possibly-failing function
parameter.  Everything else is embedded concretely.
-/

set_option maxHeartbeats 1600000

namespace MermaidRF

/-! ## JavaScript string primitives -/

/-- Characters treated as whitespace by JavaScript string trim and by the
regex character class for whitespace: ASCII whitespace plus the Unicode
space separators JavaScript includes. -/
def isJsWs (c : Char) : Bool :=
  c = ' ' || c = '\t' || c = '\n' || c = '\r' ||
  c.val = 11 || c.val = 12 || c.val = 0xa0 || c.val = 0x1680 ||
  (0x2000 ≤ c.val && c.val ≤ 0x200a) || c.val = 0x2028 || c.val = 0x2029 ||
  c.val = 0x202f || c.val = 0x205f || c.val = 0x3000 || c.val = 0xfeff

/-- JavaScript String.prototype.trim on a character list. -/
def jsTrim (l : List Char) : List Char :=
  ((l.dropWhile isJsWs).reverse.dropWhile isJsWs).reverse

/-- JavaScript String.prototype.split with separator newline:
always yields at least one (possibly empty) part. -/
def splitNl : List Char → List (List Char)
  | [] => [[]]
  | c :: cs =>
    if c = '\n' then [] :: splitNl cs
    else
      match splitNl cs with
      | [] => [[c]]
      | l :: ls => (c :: l) :: ls

/-- Array.prototype.join with separator newline. -/
def joinNl (ls : List (List Char)) : List Char :=
  List.intercalate ['\n'] ls

/-- Number of newline characters in a list (used for the line index of a
character offset, as substring-before-split does in the source). -/
def countNl (l : List Char) : Nat :=
  l.countP (· = '\n')

/-- JavaScript String.prototype.includes: substring occurrence test. -/
def containsSub (pat : List Char) : List Char → Bool
  | [] => pat.isPrefixOf ([] : List Char)
  | c :: t => pat.isPrefixOf (c :: t) || containsSub pat t

/-- ASCII lower-casing of a character list (JavaScript toLowerCase on the
ASCII inputs this code feeds it). -/
def lowerList (l : List Char) : List Char :=
  l.map Char.toLower

/-- Case-insensitive (ASCII) prefix test. -/
def isPrefixOfCI (pat s : List Char) : Bool :=
  (lowerList pat).isPrefixOf (lowerList s)

/-! ## A JavaScript-regex engine for the patterns used by the source

All quantifiers occurring in the source patterns apply to single-character
classes, and all alternations are (expansions into) ordered lists of
literal strings; the engine implements exactly this fragment with full
backtracking, which coincides with the JavaScript semantics on it. -/

/-- Quantifier on a single-character class. -/
inductive Quant where
  | one
  | opt
  | star
  | plus
  | starLazy
deriving Repr, DecidableEq

/-- One piece of a regex: a literal (case-sensitive or ASCII
case-insensitive), a quantified character class, an ordered alternation of
literal strings, a capturing group, or a greedy optional group. -/
inductive Piece where
  | lit : List Char → Piece
  | litCI : List Char → Piece
  | cls : (Char → Bool) → Quant → Piece
  | alts : List (List Char) → Piece
  | group : Nat → List Piece → Piece
  | optSeq : List Piece → Piece

/-- Capture assignments; most recent assignment first. -/
abbrev Caps := List (Nat × List Char)

/-- Look up capture group i (JavaScript: undefined when the group did not
participate in the match). -/
def capLookup (caps : Caps) (i : Nat) : Option (List Char) :=
  match caps with
  | [] => none
  | (j, v) :: rest => if j = i then some v else capLookup rest i

/-- First success of f over a list, in order. -/
def firstSome {α β : Type} (f : α → Option β) : List α → Option β
  | [] => none
  | a :: as =>
    match f a with
    | some b => some b
    | none => firstSome f as

/-- Backtracking matcher in continuation-passing style.  The continuation
receives the remaining input and the captures accumulated on the current
path; alternatives are tried in JavaScript preference order, so the first
success is the JavaScript match.  The fuel only bounds the static nesting
depth of the pattern (each recursive call steps to a structurally later
part of the pattern), so any fuel at least the pattern size is enough. -/
def matchPieces (fuel : Nat) (ps : List Piece) (s : List Char) (caps : Caps)
    (k : List Char → Caps → Option (List Char × Caps)) :
    Option (List Char × Caps) :=
  match fuel with
  | 0 => none
  | fuel + 1 =>
    match ps with
    | [] => k s caps
    | p :: rest =>
      let k1 : List Char → Caps → Option (List Char × Caps) :=
        fun s' caps' => matchPieces fuel rest s' caps' k
      match p with
      | .lit l =>
        if l.isPrefixOf s then k1 (s.drop l.length) caps else none
      | .litCI l =>
        if isPrefixOfCI l s then k1 (s.drop l.length) caps else none
      | .alts ls =>
        firstSome
          (fun l => if l.isPrefixOf s then k1 (s.drop l.length) caps else none)
          ls
      | .cls p q =>
        match q with
        | .one =>
          match s with
          | [] => none
          | c :: t => if p c then k1 t caps else none
        | .opt =>
          match s with
          | [] => k1 s caps
          | c :: t =>
            if p c then
              match k1 t caps with
              | some r => some r
              | none => k1 s caps
            else k1 s caps
        | .star =>
          let run := (s.takeWhile p).length
          firstSome (fun n => k1 (s.drop n) caps)
            ((List.range (run + 1)).reverse)
        | .plus =>
          let run := (s.takeWhile p).length
          firstSome (fun n => k1 (s.drop (n + 1)) caps)
            ((List.range run).reverse)
        | .starLazy =>
          let run := (s.takeWhile p).length
          firstSome (fun n => k1 (s.drop n) caps)
            (List.range (run + 1))
      | .group i body =>
        matchPieces fuel body s caps
          (fun s' caps' => k1 s' ((i, s.take (s.length - s'.length)) :: caps'))
      | .optSeq body =>
        match matchPieces fuel body s caps k1 with
        | some r => some r
        | none => k1 s caps

/-- A compiled regex: whether it is anchored at the start (a caret, with no
multiline flag, restricts matching to position 0), its pieces, and whether
it is anchored at the end. -/
structure JsRegex where
  anchored : Bool := false
  pieces : List Piece
  endAnchored : Bool := false

/-- A successful match: its index, the full matched text, and captures. -/
structure RegexMatch where
  index : Nat
  matched : List Char
  caps : Caps
deriving Repr

/-- Fuel bound exceeding the size of every pattern transcribed below. -/
def regexFuel : Nat := 100

/-- Try to match the pieces at the start of s, honoring the end anchor. -/
def tryMatchAt (re : JsRegex) (s : List Char) : Option (List Char × Caps) :=
  matchPieces regexFuel re.pieces s []
    (fun rem caps =>
      if re.endAnchored then
        if rem.isEmpty then some (rem, caps) else none
      else some (rem, caps))

/-- Scan for the leftmost match starting at or after index base. -/
def searchFrom (re : JsRegex) : List Char → Nat → Option RegexMatch
  | s, base =>
    match tryMatchAt re s with
    | some (rem, caps) =>
      some ⟨base, s.take (s.length - rem.length), caps⟩
    | none =>
      match s with
      | [] => none
      | _ :: t => searchFrom re t (base + 1)

/-- JavaScript String.prototype.match with a non-global regex: the
leftmost match, or none. -/
def jsMatch (re : JsRegex) (s : List Char) : Option RegexMatch :=
  if re.anchored then
    match tryMatchAt re s with
    | some (rem, caps) => some ⟨0, s.take (s.length - rem.length), caps⟩
    | none => none
  else searchFrom re s 0

/-- All matches of a global regex, advancing past each match as the
source's exec loop does (every pattern used this way matches at least one
character, so the list-length fuel suffices). -/
def jsMatchAll (re : JsRegex) (s : List Char) : List RegexMatch :=
  go (s.length + 1) s 0
where
  go : Nat → List Char → Nat → List RegexMatch
    | 0, _, _ => []
    | fuel + 1, s, base =>
      match jsMatch re s with
      | none => []
      | some m =>
        let skip := m.index + m.matched.length
        if skip = 0 then []
        else
          (⟨base + m.index, m.matched, m.caps⟩ : RegexMatch) ::
            go fuel (s.drop skip) (base + skip)

/-- JavaScript String.prototype.replace with a global regex and a constant
replacement: leftmost-scan, non-overlapping (every pattern used this way
matches at least one character). -/
def jsReplaceAll (re : JsRegex) (repl : List Char) (s : List Char) :
    List Char :=
  go (s.length + 1) s
where
  go : Nat → List Char → List Char
    | 0, s => s
    | fuel + 1, s =>
      match s with
      | [] => []
      | c :: t =>
        match tryMatchAt re s with
        | some (rem, _) =>
          let consumed := s.length - rem.length
          if consumed = 0 then c :: go fuel t
          else repl ++ go fuel (s.drop consumed)
        | none => c :: go fuel t

/-! ## Character classes of the source patterns -/

/-- The class of identifier characters `A-Z a-z 0-9 _` (also the regex
word class). -/
def isIdChar (c : Char) : Bool :=
  ('A' ≤ c && c ≤ 'Z') || ('a' ≤ c && c ≤ 'z') || ('0' ≤ c && c ≤ '9') ||
    c = '_'

/-- Opening bracket class: `[ ( {`. -/
def isOpenBr (c : Char) : Bool :=
  c = '[' || c = '(' || c = '{'

/-- Closing bracket class: `] ) }`. -/
def isCloseBr (c : Char) : Bool :=
  c = ']' || c = ')' || c = '}'

/-- Negated closing bracket class. -/
def notCloseBr (c : Char) : Bool :=
  !(isCloseBr c)

/-- Negated pipe class. -/
def notPipe (c : Char) : Bool :=
  c ≠ '|'

/-- Negated greater-than class. -/
def notGt (c : Char) : Bool :=
  c ≠ '>'

/-- The JavaScript dot (no dotAll flag): any character except a line
terminator. -/
def isDotChar (c : Char) : Bool :=
  !(c = '\n' || c = '\r' || c.val = 0x2028 || c.val = 0x2029)

/-- Any character (the double class of whitespace-or-not used by the
fenced-block pattern). -/
def anyChar (_ : Char) : Bool := true

/-- Negation of the whitespace class. -/
def notWs (c : Char) : Bool :=
  !(isJsWs c)

/-! ## The source regexes, transcribed -/

/-- Source pattern (anchored): subgraph, whitespace, group 1 of
non-whitespace, optionally whitespace, an open square bracket, group 2 of
any characters, a close square bracket. -/
def subgraphRe : JsRegex :=
  { anchored := true
    pieces :=
      [ .lit "subgraph".data,
        .cls isJsWs .plus,
        .group 1 [.cls notWs .plus],
        .optSeq [.cls isJsWs .star, .lit "[".data,
                 .group 2 [.cls isDotChar .plus], .lit "]".data] ] }

/-- The arrow-token alternation of the flowchart edge patterns, in source
order. -/
def arrowAlts : List (List Char) :=
  ["-->", "->", "---", "===>", "==>", "-.-", ":-:", "::", "~", "...",
   "==="].map String.data

/-- An optional bracketed shape definition: one opening bracket, any run
of non-closing-bracket characters, one closing bracket. -/
def shapeBrackets : Piece :=
  .optSeq [.cls isOpenBr .one, .cls notCloseBr .star, .cls isCloseBr .one]

/-- First flowchart edge pattern: group 1 id, optional shape brackets,
whitespace, group 2 arrow, whitespace, optional pipe-delimited group 3
label, whitespace, group 4 id, optional shape brackets. -/
def edge1Re : JsRegex :=
  { pieces :=
      [ .group 1 [.cls isIdChar .plus],
        shapeBrackets,
        .cls isJsWs .star,
        .group 2 [.alts arrowAlts],
        .cls isJsWs .star,
        .optSeq [.lit "|".data, .group 3 [.cls notPipe .plus],
                 .lit "|".data],
        .cls isJsWs .star,
        .group 4 [.cls isIdChar .plus],
        shapeBrackets ] }

/-- Second (simpler) flowchart edge pattern: group 1 id, whitespace,
group 2 arrow, whitespace, group 3 id. -/
def edge2Re : JsRegex :=
  { pieces :=
      [ .group 1 [.cls isIdChar .plus],
        .cls isJsWs .star,
        .group 2 [.alts arrowAlts],
        .cls isJsWs .star,
        .group 3 [.cls isIdChar .plus] ] }

/-- The dynamically built node-definition pattern: the node id as a
literal, directly followed by group 1 capturing one bracketed shape
definition.  (Ids consist of identifier characters, so the interpolation
in the source never injects metacharacters.) -/
def nodeDefRe (id : List Char) : JsRegex :=
  { pieces :=
      [ .lit id,
        .group 1 [.cls isOpenBr .one, .cls notCloseBr .star,
                  .cls isCloseBr .one] ] }

/-- The label-extraction pattern: an opening bracket, group 1 of
non-closing-bracket characters, a closing bracket. -/
def labelRe : JsRegex :=
  { pieces :=
      [ .cls isOpenBr .one, .group 1 [.cls notCloseBr .star],
        .cls isCloseBr .one ] }

/-- First standalone node pattern (anchored): group 1 id followed by
group 2 of one bracketed shape definition. -/
def standalone1Re : JsRegex :=
  { anchored := true
    pieces :=
      [ .group 1 [.cls isIdChar .plus],
        .group 2 [.cls isOpenBr .one, .cls notCloseBr .star,
                  .cls isCloseBr .one] ] }

/-- Second standalone node pattern (anchored both ends): a bare id. -/
def standalone2Re : JsRegex :=
  { anchored := true
    endAnchored := true
    pieces := [ .group 1 [.cls isIdChar .plus] ] }

/-- Sequence participant pattern (case-insensitive): participant,
whitespace, group 1 word, optionally whitespace, as, whitespace, group 2
of any characters. -/
def participantRe : JsRegex :=
  { pieces :=
      [ .litCI "participant".data,
        .cls isJsWs .plus,
        .group 1 [.cls isIdChar .plus],
        .optSeq [.cls isJsWs .plus, .litCI "as".data, .cls isJsWs .plus,
                 .group 2 [.cls isDotChar .plus]] ] }

/-- The sequence arrow alternation.  The source alternation consists of
three alternatives, the first and third containing greedy optional
characters; expanding those options in JavaScript backtracking preference
order yields this ordered literal list (the trailing repeats are
unreachable but kept to mirror the expansion). -/
def messageArrowAlts : List (List Char) :=
  ["-->>", "-->", "->>", "->", "-)", "->>", "->"].map String.data

/-- Sequence message pattern: group 1 word, whitespace, group 2 arrow,
whitespace, group 3 word, whitespace, colon, whitespace, group 4 of any
characters. -/
def messageRe : JsRegex :=
  { pieces :=
      [ .group 1 [.cls isIdChar .plus],
        .cls isJsWs .star,
        .group 2 [.alts messageArrowAlts],
        .cls isJsWs .star,
        .group 3 [.cls isIdChar .plus],
        .cls isJsWs .star,
        .lit ":".data,
        .cls isJsWs .star,
        .group 4 [.cls isDotChar .plus] ] }

/-- HTML line-break tag pattern (global, case-insensitive). -/
def brRe : JsRegex :=
  { pieces :=
      [ .litCI "<br".data, .cls isJsWs .star, .optSeq [.lit "/".data],
        .lit ">".data ] }

/-- HTML tag pattern (global). -/
def tagRe : JsRegex :=
  { pieces := [ .lit "<".data, .cls notGt .star, .lit ">".data ] }

/-- Fenced mermaid block pattern (global): the opening fence line, group 1
lazily capturing anything, the closing fence. -/
def mermaidBlockRe : JsRegex :=
  { pieces :=
      [ .lit "```mermaid\n".data,
        .group 1 [.cls anyChar .starLazy],
        .lit "```".data ] }

/-! ## Intermediate graph data model -/

/-- Optional metadata carried by sequence-diagram nodes. -/
structure NodeMeta where
  source : Option String := none
  target : Option String := none
  participantOrder : Option Nat := none
  lifelineIndex : Option Nat := none
  participantId : Option String := none
deriving Repr, DecidableEq

/-- An intermediate parsed node. -/
structure MermaidNode where
  id : String
  label : String
  shape : String
  subgraph : Option String := none
  metadata : Option NodeMeta := none
deriving Repr, DecidableEq

/-- An intermediate parsed edge.  The label is absent exactly when the
source never sets the property. -/
structure MermaidEdge where
  source : String
  target : String
  label : Option String := none
  type : String
deriving Repr, DecidableEq

/-- A parsed subgraph with its member ids in insertion order. -/
structure SubgraphInfo where
  id : String
  title : String
  nodes : List String
deriving Repr, DecidableEq

/-- cleanLabel: line-break tags to newlines, all other tags stripped,
then trimmed. -/
def cleanLabel (l : List Char) : List Char :=
  jsTrim (jsReplaceAll tagRe [] (jsReplaceAll brRe ['\n'] l))

/-- getNodeShape: the bracket-substring cascade of the source. -/
def getNodeShape (d : List Char) : String :=
  if containsSub ['{'] d && containsSub ['}'] d then "diamond"
  else if containsSub "((".data d && containsSub "))".data d then "circle"
  else if containsSub "([".data d && containsSub "])".data d then "stadium"
  else if containsSub ['['] d && containsSub [']'] d then "rect"
  else if containsSub ['('] d && containsSub [')'] d then "round"
  else "rect"

/-! ## Sequence-diagram parser -/

/-- A recognized message line. -/
structure SeqMessage where
  source : String
  target : String
  label : String
  arrowType : String
  index : Nat
deriving Repr, DecidableEq

/-- The line normalization shared by both parsers: split, trim, drop
empty lines and comment lines. -/
def seqLines (code : String) : List (List Char) :=
  ((splitNl code.data).map jsTrim).filter
    (fun l => !l.isEmpty && !("%%".data.isPrefixOf l))

/-- Insertion-ordered string map (participantLabels). -/
abbrev StrMap := List (String × String)

/-- Map key test. -/
def mapHas (m : StrMap) (k : String) : Bool :=
  m.any (·.1 = k)

/-- Map lookup. -/
def mapGet (m : StrMap) (k : String) : Option String :=
  (m.find? (·.1 = k)).map (·.2)

/-- State of the participant-collection pass. -/
structure SeqPass1 where
  order : List String
  labels : StrMap
deriving Repr

/-- First pass: explicit participant declarations in first-seen order.
The capture cases that cannot occur on a successful match (group 1 is
mandatory) fall through unchanged. -/
def seqPass1Step (st : SeqPass1) (line : List Char) : SeqPass1 :=
  if "participant ".data.isPrefixOf (lowerList line) then
    match jsMatch participantRe line with
    | some m =>
      match capLookup m.caps 1 with
      | some idc =>
        let id := String.mk idc
        let label :=
          match capLookup m.caps 2 with
          | some l => String.mk l
          | none => id
        if mapHas st.labels id then st
        else ⟨st.order ++ [id], st.labels ++ [(id, label)]⟩
      | none => st
    | none => st
  else st

/-- State of the message-collection pass. -/
structure SeqPass2 where
  order : List String
  labels : StrMap
  messages : List SeqMessage
deriving Repr

/-- Second pass: message lines, auto-discovering endpoints.  The running
message index of the source always equals the current message count, so
the index is recorded as that count. -/
def seqPass2Step (st : SeqPass2) (line : List Char) : SeqPass2 :=
  match jsMatch messageRe line with
  | some m =>
    match capLookup m.caps 1, capLookup m.caps 2, capLookup m.caps 3,
        capLookup m.caps 4 with
    | some src, some arr, some tgt, some msg =>
      let source := String.mk src
      let target := String.mk tgt
      let st1 :=
        if mapHas st.labels source then st
        else { st with
               order := st.order ++ [source],
               labels := st.labels ++ [(source, source)] }
      let st2 :=
        if mapHas st1.labels target then st1
        else { st1 with
               order := st1.order ++ [target],
               labels := st1.labels ++ [(target, target)] }
      { st2 with
        messages := st2.messages ++
          [⟨source, target, String.mk msg, String.mk arr,
            st2.messages.length⟩] }
    | _, _, _, _ => st
  | none => st

/-- parseSequenceDiagram: header nodes per participant, a chain of
lifeline point nodes per participant (message count plus two), vertical
chain edges plus a header attachment edge per participant, then one edge
per message at its time slot. -/
def parseSequenceDiagram (code : String) :
    List MermaidNode × List MermaidEdge :=
  let lines := seqLines code
  let p1 := lines.foldl seqPass1Step ⟨[], []⟩
  let p2 := lines.foldl seqPass2Step ⟨p1.order, p1.labels, []⟩
  let numPoints := p2.messages.length + 2
  let headers := p2.order.enum.map (fun oi =>
    ({ id := "header_" ++ oi.2,
       label := (mapGet p2.labels oi.2).getD oi.2,
       shape := "rect",
       metadata := some { participantOrder := some oi.1,
                          participantId := some oi.2 } } : MermaidNode))
  let lifelines := (p2.order.enum.map (fun oi =>
    (List.range numPoints).map (fun i =>
      ({ id := "lifeline_" ++ oi.2 ++ "_" ++ toString i,
         label := "",
         shape := "rect",
         metadata := some { participantOrder := some oi.1,
                            lifelineIndex := some i } } : MermaidNode)))).flatten
  let chainEdges := (p2.order.map (fun id =>
    ((List.range numPoints).filterMap (fun i =>
      if 0 < i then
        some ({ source := "lifeline_" ++ id ++ "_" ++ toString (i - 1),
                target := "lifeline_" ++ id ++ "_" ++ toString i,
                label := none, type := "default" } : MermaidEdge)
      else none)) ++
    [{ source := "header_" ++ id,
       target := "lifeline_" ++ id ++ "_0",
       label := none, type := "default" }])).flatten
  let messageEdges := p2.messages.map (fun msg =>
    ({ source := "lifeline_" ++ msg.source ++ "_" ++ toString (msg.index + 1),
       target := "lifeline_" ++ msg.target ++ "_" ++ toString (msg.index + 1),
       label := some msg.label,
       type := if containsSub "--".data msg.arrowType.data then "dashed"
               else "default" } : MermaidEdge))
  (headers ++ lifelines, chainEdges ++ messageEdges)

/-! ## Flowchart parser -/

/-- The mutable scan state of the flowchart parser: accumulated nodes,
edges and subgraphs, the keys of the node map (whose entries are always
inserted together with a pushed node), and the open subgraph context. -/
structure FlowState where
  nodes : List MermaidNode
  edges : List MermaidEdge
  subgraphs : List SubgraphInfo
  nodeMap : List String
  currentSubgraph : Option String
deriving Repr

/-- Append a member id to the first subgraph entry with the given id
(the find-then-push of the source; no-op when the id is absent). -/
def pushToSubgraph : List SubgraphInfo → String → String → List SubgraphInfo
  | [], _, _ => []
  | sg :: rest, c, nid =>
    if sg.id = c then { sg with nodes := sg.nodes ++ [nid] } :: rest
    else sg :: pushToSubgraph rest c nid

/-- Create a node (id, label, shape, current subgraph), record its map
key, and register it with the open subgraph if any: the block the source
repeats at each of its node-creation sites. -/
def addNode (st : FlowState) (id label shape : String) : FlowState :=
  { st with
    nodes := st.nodes ++
      [{ id := id, label := label, shape := shape,
         subgraph := st.currentSubgraph }],
    nodeMap := st.nodeMap ++ [id],
    subgraphs :=
      match st.currentSubgraph with
      | some c => pushToSubgraph st.subgraphs c id
      | none => st.subgraphs }

/-- The label computed from a bracketed definition: the first bracket
group's cleaned content, or the id when no bracket group occurs. -/
def defToLabel (id : String) (d : List Char) : String :=
  match jsMatch labelRe d with
  | some lm => String.mk (cleanLabel ((capLookup lm.caps 1).getD []))
  | none => id

/-- Create a node from its bracketed definition text: shape from the
cascade, label from the first bracket group. -/
def newNodeFromDef (st : FlowState) (nid : String) (nodeDef : List Char) :
    FlowState :=
  addNode st nid (defToLabel nid nodeDef) (getNodeShape nodeDef)

/-- Endpoint handling of an edge line.  The source guards both of its
branches by the node being absent and chooses the rich branch when the
id-followed-by-brackets pattern matches somewhere in the line; written
here as: existing ids do nothing, otherwise the definition match decides
between the rich and the plain default node. -/
def ensureNode (st : FlowState) (id : String) (line : List Char) :
    FlowState :=
  if st.nodeMap.contains id then st
  else
    match jsMatch (nodeDefRe id.data) line with
    | some m => newNodeFromDef st id m.matched
    | none => addNode st id id "rect"

/-- Open a subgraph: push an empty-membered entry and make it current. -/
def openSubgraph (st : FlowState) (sgId title : String) : FlowState :=
  { st with
    subgraphs := st.subgraphs ++ [{ id := sgId, title := title,
                                    nodes := [] }],
    currentSubgraph := some sgId }

/-- The target id of an edge match: capture 4, or capture 3 when the
simpler pattern (with no fourth group) matched. -/
def edgeTargetId (m : RegexMatch) : String :=
  match capLookup m.caps 4 with
  | some t => String.mk t
  | none => String.mk ((capLookup m.caps 3).getD [])

/-- Record an edge. -/
def edgePush (st : FlowState) (e : MermaidEdge) : FlowState :=
  { st with edges := st.edges ++ [e] }

/-- Edge-line handling: ensure both endpoints exist (creating them in
order with the current subgraph context), then record the edge with the
matched arrow token and optional pipe label. -/
def addEdgeLine (st : FlowState) (line : List Char) (m : RegexMatch) :
    FlowState :=
  edgePush
    (ensureNode
      (ensureNode st (String.mk ((capLookup m.caps 1).getD [])) line)
      (edgeTargetId m) line)
    { source := String.mk ((capLookup m.caps 1).getD [])
      target := edgeTargetId m
      label := some (String.mk ((capLookup m.caps 3).getD []))
      type := String.mk ((capLookup m.caps 2).getD []) }

/-- The bare-id fallback pattern of the standalone-definition loop (its
bracketed definition defaults to the id in square brackets). -/
def standaloneByPat2 (st : FlowState) (line : List Char) : FlowState :=
  match jsMatch standalone2Re line with
  | some m2 =>
    if st.nodeMap.contains (String.mk ((capLookup m2.caps 1).getD [])) then
      st
    else
      newNodeFromDef st (String.mk ((capLookup m2.caps 1).getD []))
        (['['] ++ (String.mk ((capLookup m2.caps 1).getD [])).data ++ [']'])
  | none => st

/-- Standalone-definition handling: the bracketed pattern first, the
bare-id pattern as fallback, each creating only when the id is new (the
source's pattern loop with its break). -/
def standaloneLine (st : FlowState) (line : List Char) : FlowState :=
  match jsMatch standalone1Re line with
  | some m =>
    if st.nodeMap.contains (String.mk ((capLookup m.caps 1).getD [])) then
      standaloneByPat2 st line
    else
      newNodeFromDef st (String.mk ((capLookup m.caps 1).getD []))
        ((capLookup m.caps 2).getD [])
  | none => standaloneByPat2 st line

/-- One line of the flowchart scan: subgraph open, subgraph close, edge
line (first the labeled pattern, then the bare one), else standalone node
definition.  The subgraph title defaults to the subgraph id. -/
def flowStepCore (st : FlowState) (line : List Char) : FlowState :=
  if line.isEmpty then st
  else
    match jsMatch subgraphRe line with
    | some m =>
      openSubgraph st (String.mk ((capLookup m.caps 1).getD []))
        (match capLookup m.caps 2 with
         | some t => String.mk t
         | none => String.mk ((capLookup m.caps 1).getD []))
    | none =>
      if line = "end".data then { st with currentSubgraph := none }
      else
        match
          (match jsMatch edge1Re line with
           | some m => some m
           | none => jsMatch edge2Re line) with
        | some m => addEdgeLine st line m
        | none => standaloneLine st line

/-- The scan step applied to a raw line, which the source trims first. -/
def flowStep (st : FlowState) (rawLine : List Char) : FlowState :=
  flowStepCore st (jsTrim rawLine)

/-- The result of one parse. -/
structure FlowParse where
  nodes : List MermaidNode
  edges : List MermaidEdge
  subgraphs : List SubgraphInfo
deriving Repr, DecidableEq

/-- The flowchart line normalization: trim, drop empty and comment lines,
re-join and re-split as the source does. -/
def flowLines (code : String) : List (List Char) :=
  splitNl (joinNl (((splitNl code.data).map jsTrim).filter
    (fun l => !l.isEmpty && !("%%".data.isPrefixOf l))))

/-- The initial scan state. -/
def initFlowState : FlowState := ⟨[], [], [], [], none⟩

/-- The dispatch test of the source, used both by the parser and again by
the entry point: the trimmed code starts with the sequence keyword. -/
def isSeqCode (code : String) : Bool :=
  "sequenceDiagram".data.isPrefixOf (jsTrim code.data)

/-- parseMermaidCode: dispatch sequence diagrams, otherwise scan every
line after the first. -/
def parseMermaidCode (code : String) : FlowParse :=
  if isSeqCode code then
    let pr := parseSequenceDiagram code
    ⟨pr.1, pr.2, []⟩
  else
    let lines := flowLines code
    let fin := (lines.drop 1).foldl flowStep initFlowState
    ⟨fin.nodes, fin.edges, fin.subgraphs⟩

/-! ## React Flow output model

JavaScript numbers appearing here are small exact decimals; they are
represented exactly in the rationals.  CSS property values are strings or
numbers, represented by a small sum type.  Absent object properties are
none. -/

/-- A CSS value: string or number. -/
inductive CssVal where
  | str : String → CssVal
  | num : ℚ → CssVal
deriving Repr, DecidableEq

/-- A 2D point. -/
structure XY where
  x : ℚ
  y : ℚ
deriving Repr, DecidableEq

/-- The CSS properties this code writes into style objects. -/
structure RFStyle where
  backgroundColor : Option CssVal := none
  background : Option CssVal := none
  border : Option CssVal := none
  borderColor : Option CssVal := none
  borderWidth : Option CssVal := none
  borderStyle : Option CssVal := none
  borderRadius : Option CssVal := none
  boxShadow : Option CssVal := none
  width : Option CssVal := none
  height : Option CssVal := none
  minWidth : Option CssVal := none
  minHeight : Option CssVal := none
  zIndex : Option CssVal := none
  opacity : Option CssVal := none
  color : Option CssVal := none
  fontWeight : Option CssVal := none
  padding : Option CssVal := none
  stroke : Option CssVal := none
  strokeWidth : Option CssVal := none
  strokeDasharray : Option CssVal := none
  fill : Option CssVal := none
  fillOpacity : Option CssVal := none
  fontSize : Option CssVal := none
deriving Repr, DecidableEq

/-- The data payload this code attaches to nodes. -/
structure RFNodeData where
  label : Option String := none
  isSubgraph : Option Bool := none
  githubUrl : Option String := none
  description : Option String := none
  shape : Option String := none
  colors : Option (String × String) := none
deriving Repr, DecidableEq

/-- A React Flow node as this code builds it. -/
structure RFNode where
  id : String
  type : Option String := none
  position : XY
  data : RFNodeData := {}
  style : RFStyle := {}
  sourcePosition : Option String := none
  targetPosition : Option String := none
  parentNode : Option String := none
  extent : Option String := none
  selectable : Option Bool := none
  draggable : Option Bool := none
  connectable : Option Bool := none
  zIndex : Option Int := none
deriving Repr, DecidableEq

/-- An arrow marker. -/
structure RFMarker where
  type : String := "arrowclosed"
  width : Option ℚ := none
  height : Option ℚ := none
  color : Option String := none
deriving Repr, DecidableEq

/-- A React Flow edge as this code builds it. -/
structure RFEdge where
  id : String
  source : String
  target : String
  label : Option String := none
  type : String
  animated : Bool := false
  style : RFStyle := {}
  labelStyle : Option RFStyle := none
  labelBgStyle : Option RFStyle := none
  markerEnd : Option RFMarker := none
  zIndex : Option Int := none
deriving Repr, DecidableEq

/-- The pipeline result: the node and edge lists handed to React Flow. -/
structure ReactFlowData where
  nodes : List RFNode
  edges : List RFEdge
deriving Repr, DecidableEq

/-- JavaScript truthiness of an optional string property. -/
def jsTruthy : Option String → Bool
  | none => false
  | some s => !s.isEmpty

/-! ## Phase-3 assembly (createReactFlowElements) -/

/-- A node box inside a laid-out subgraph. -/
structure LayoutRect where
  x : ℚ
  y : ℚ
  width : ℚ
  height : ℚ
deriving Repr, DecidableEq

/-- A laid-out subgraph container (the Phase-1 output per subgraph). -/
structure SubgraphLayoutBox where
  id : String
  title : String
  nodes : String → Option LayoutRect
  width : ℚ
  height : ℚ

/-- The color scheme keyed by node shape. -/
def getNodeColors (shape : String) : String × String :=
  if shape = "rect" then ("#E3F2FD", "#1976D2")
  else if shape = "diamond" then ("#FFF3E0", "#F57C00")
  else if shape = "circle" then ("#E8F5E8", "#388E3C")
  else if shape = "stadium" then ("#F3E5F5", "#7B1FA2")
  else if shape = "round" then ("#FCE4EC", "#C2185B")
  else ("#F0F4F8", "#2D3748")

/-- The subgraph container palette, cyclic in the subgraph index. -/
def getSubgraphColors (index : Nat) : String × String :=
  [("rgba(227, 242, 253, 0.4)", "#1976D2"),
   ("rgba(232, 245, 233, 0.4)", "#388E3C"),
   ("rgba(243, 229, 245, 0.4)", "#7B1FA2"),
   ("rgba(255, 243, 224, 0.4)", "#F57C00"),
   ("rgba(252, 228, 236, 0.4)", "#C2185B")].getD (index % 5)
    ("rgba(227, 242, 253, 0.4)", "#1976D2")

/-- The edge stroke palette, cyclic in the edge index. -/
def edgeColorAt (index : Nat) : String :=
  ["#1976D2", "#388E3C", "#F57C00", "#7B1FA2", "#C2185B"].getD (index % 5)
    "#1976D2"

/-- The border radius override of the shape switch. -/
def shapeBorderRadius (shape : String) : String :=
  if shape = "diamond" then "0px"
  else if shape = "circle" then "50%"
  else if shape = "stadium" then "30px"
  else if shape = "round" then "15px"
  else "8px"

/-- Phase 3: one container element per positioned subgraph, one custom
node per graph node (relative position and parent reference for subgraph
members, map position or origin for standalone nodes), and one styled
edge per graph edge with a cyclic color and arrow-token styling. -/
def createReactFlowElements (nodes : List MermaidNode)
    (edges : List MermaidEdge) (subgraphs : List SubgraphInfo)
    (subgraphLayouts : String → Option SubgraphLayoutBox)
    (subgraphPositions : String → Option XY)
    (standalonePositions : String → Option XY) : ReactFlowData :=
  let containerNodes : List RFNode :=
    subgraphs.enum.filterMap (fun isg =>
      match subgraphLayouts isg.2.id, subgraphPositions isg.2.id with
      | some layout, some position =>
        let colors := getSubgraphColors isg.1
        some
          { id := isg.2.id
            type := some "group"
            position := position
            data := { label := some isg.2.title, isSubgraph := some true }
            style :=
              { backgroundColor := some (.str colors.1)
                border := some (.str ("3px solid " ++ colors.2))
                borderRadius := some (.str "12px")
                width := some (.num layout.width)
                height := some (.num layout.height)
                boxShadow := some (.str "0 4px 12px rgba(0, 0, 0, 0.1)")
                zIndex := some (.num (-1)) }
            selectable := some true
            draggable := some true
            connectable := some false }
      | _, _ => none)
  let graphNodes : List RFNode :=
    nodes.map (fun node =>
      let colors := getNodeColors node.shape
      let nodeStyle : RFStyle :=
        { backgroundColor := some (.str colors.1)
          borderColor := some (.str colors.2)
          borderWidth := some (.str "2px")
          borderStyle := some (.str "solid")
          borderRadius := some (.str (shapeBorderRadius node.shape))
          boxShadow := some (.str "0 2px 8px rgba(0, 0, 0, 0.1)") }
      let pp : XY × Option String :=
        match node.subgraph with
        | some sg =>
          match subgraphLayouts sg, subgraphPositions sg with
          | some layout, some _ =>
            match layout.nodes node.id with
            | some nl =>
              (⟨nl.x - nl.width / 2, nl.y - nl.height / 2⟩, some sg)
            | none => (⟨0, 0⟩, none)
          | _, _ => (⟨0, 0⟩, none)
        | none => ((standalonePositions node.id).getD ⟨0, 0⟩, none)
      { id := node.id
        type := some "custom"
        position := pp.1
        data :=
          { label := some node.label, githubUrl := some "",
            description := some "", shape := some node.shape,
            colors := some colors }
        style := nodeStyle
        sourcePosition := some "bottom"
        targetPosition := some "top"
        parentNode := pp.2
        extent := match pp.2 with | some _ => some "parent" | none => none
        draggable := some true
        zIndex := some 1 })
  let rfEdges : List RFEdge :=
    edges.enum.map (fun ie =>
      let edgeColor := edgeColorAt ie.1
      let edge := ie.2
      let base : RFStyle :=
        { stroke := some (.str edgeColor), strokeWidth := some (.num 2) }
      let styled : RFStyle × Bool :=
        if edge.type = "-->" || edge.type = "->" then
          ({ base with strokeWidth := some (.num (5 / 2)) }, true)
        else if edge.type = "---" then
          ({ base with strokeDasharray := some (.str "8,4") }, false)
        else if edge.type = "-.-" then
          ({ base with strokeDasharray := some (.str "4,4") }, false)
        else if edge.type = "==>" || edge.type = "===>" then
          ({ base with strokeWidth := some (.num 4) }, true)
        else (base, false)
      { id := "edge-" ++ edge.source ++ "-" ++ edge.target ++ "-" ++
          toString ie.1
        source := edge.source
        target := edge.target
        label := edge.label
        type := "smoothstep"
        animated := styled.2
        style := styled.1
        labelStyle := some
          { fontSize := some (.str "12px")
            fontWeight := some (.str "500")
            color := some (.str edgeColor)
            backgroundColor := some (.str "white")
            padding := some (.str "2px 6px")
            borderRadius := some (.str "4px")
            border := some (.str ("1px solid " ++ edgeColor)) }
        markerEnd := some
          { type := "arrowclosed", width := some 20, height := some 20,
            color := some edgeColor }
        zIndex := some 0 })
  ⟨containerNodes ++ graphNodes, rfEdges⟩

/-! ## Sequence layout -/

/-- The participant header gradient palette. -/
def participantColorAt (order : Nat) : String × String :=
  [("linear-gradient(135deg, #667eea 0%, #764ba2 100%)", "#ffffff"),
   ("linear-gradient(135deg, #f093fb 0%, #f5576c 100%)", "#ffffff"),
   ("linear-gradient(135deg, #4facfe 0%, #00f2fe 100%)", "#ffffff"),
   ("linear-gradient(135deg, #43e97b 0%, #38f9d7 100%)", "#ffffff"),
   ("linear-gradient(135deg, #fa709a 0%, #fee140 100%)", "#ffffff")].getD
    (order % 5) ("linear-gradient(135deg, #667eea 0%, #764ba2 100%)", "#ffffff")

/-- The participantOrder sort key (missing metadata counts as zero). -/
def headerOrderKey (n : MermaidNode) : Nat :=
  match n.metadata with
  | some md => md.participantOrder.getD 0
  | none => 0

/-- layoutSequenceDiagram: headers on a fixed top row in participant
order, lifeline points on a fixed grid, muted vertical edges and
prominent labeled message edges. -/
def layoutSequenceDiagram (nodes : List MermaidNode)
    (edges : List MermaidEdge) : ReactFlowData :=
  let headerNodes :=
    (nodes.filter (fun n => "header_".isPrefixOf n.id)).mergeSort
      (fun a b => headerOrderKey a ≤ headerOrderKey b)
  let lifelineNodes := nodes.filter (fun n =>
    !("header_".isPrefixOf n.id) && "lifeline_".isPrefixOf n.id)
  let headerRF : List RFNode := headerNodes.map (fun header =>
    let ord := headerOrderKey header
    let scheme := participantColorAt ord
    { id := header.id
      type := some "custom"
      data := { label := some header.label, shape := some "rect" }
      position := ⟨(ord : ℚ) * 300, 50⟩
      style :=
        { background := some (.str scheme.1)
          color := some (.str scheme.2)
          border := some (.str "none")
          boxShadow := some (.str "0 4px 6px rgba(0, 0, 0, 0.1)")
          fontWeight := some (.num 600)
          padding := some (.str "12px 20px") } })
  let lifelineRF : List RFNode := lifelineNodes.map (fun lifeline =>
    let ord :=
      match lifeline.metadata with
      | some md => md.participantOrder.getD 0
      | none => 0
    let idx :=
      match lifeline.metadata with
      | some md => md.lifelineIndex.getD 0
      | none => 0
    { id := lifeline.id
      type := some "custom"
      data := { label := some "", shape := some "rect" }
      position := ⟨(ord : ℚ) * 300, 150 + (idx : ℚ) * 100⟩
      style :=
        { opacity := some (.num (1 / 5))
          width := some (.num 12)
          height := some (.num 12)
          minWidth := some (.num 12)
          minHeight := some (.num 12)
          background := some (.str "#94a3b8")
          borderRadius := some (.str "50%") } })
  let rfEdges : List RFEdge := edges.enum.map (fun ie =>
    let edge := ie.2
    let dashed := edge.type = "dashed"
    let tcw : String × String × ℚ × Bool :=
      if containsSub "lifeline_".data edge.source.data &&
          containsSub "lifeline_".data edge.target.data &&
          !jsTruthy edge.label then
        ("straight", "#cbd5e1", 2, false)
      else if containsSub "header_".data edge.source.data then
        ("straight", "#cbd5e1", 2, false)
      else if jsTruthy edge.label then
        ("straight", "#3b82f6", 3, true)
      else ("smoothstep", "#94a3b8", 2, false)
    { id := "edge-" ++ toString ie.1
      source := edge.source
      target := edge.target
      label := edge.label
      type := tcw.1
      animated := tcw.2.2.2
      style :=
        { stroke := some (.str tcw.2.1)
          strokeWidth := some (.num tcw.2.2.1)
          strokeDasharray :=
            if dashed then some (.str "8,8") else none }
      labelStyle :=
        if jsTruthy edge.label then
          some { fill := some (.str "#1e293b"), fontWeight := some (.num 500),
                 fontSize := some (.num 12) }
        else none
      labelBgStyle :=
        if jsTruthy edge.label then
          some { fill := some (.str "#ffffff"),
                 fillOpacity := some (.num (9 / 10)) }
        else none
      markerEnd :=
        if jsTruthy edge.label then
          some { type := "arrowclosed", color := some tcw.2.1,
                 width := some 20, height := some 20 }
        else none })
  ⟨headerRF ++ lifelineRF, rfEdges⟩

/-! ## Pipeline entry point -/

/-- The two dagre-dependent layout phases of the flowchart path.  dagre
is a library external to this repository; the phases are abstracted as a
computation that either produces the three layout maps (per-subgraph
boxes, subgraph container positions, standalone node positions) or throws. -/
abbrev Phase12 :=
  List MermaidNode → List MermaidEdge → List SubgraphInfo →
    Except String ((String → Option SubgraphLayoutBox) ×
      (String → Option XY) × (String → Option XY))

/-- The body of the entry point's try block: parse; empty parses return
the empty graph; sequence diagrams use the specialized layout; otherwise
the three-phase flowchart layout runs, propagating any layout fault. -/
def convertPipeline (phase12 : Phase12) (code : String) :
    Except String ReactFlowData :=
  let pr := parseMermaidCode code
  if pr.nodes.length = 0 then .ok ⟨[], []⟩
  else if isSeqCode code then
    .ok (layoutSequenceDiagram pr.nodes pr.edges)
  else
    match phase12 pr.nodes pr.edges pr.subgraphs with
    | .ok maps =>
      .ok (createReactFlowElements pr.nodes pr.edges pr.subgraphs
        maps.1 maps.2.1 maps.2.2)
    | .error e => .error e

/-- convertMermaidToReactFlow: the try block's result, with any fault
caught at the boundary and converted into the empty result. -/
def convertMermaidToReactFlow (phase12 : Phase12) (code : String) :
    ReactFlowData :=
  match convertPipeline phase12 code with
  | .ok r => r
  | .error _ => ⟨[], []⟩

/-! ## Markdown diagram extractor -/

/-- A source span (the position record with start and end offsets). -/
structure SourceSpan where
  start : Nat
  stop : Nat
deriving Repr, DecidableEq

/-- An extracted diagram block. -/
structure MermaidDiagram where
  type : String
  code : String
  name : String
  span : SourceSpan
deriving Repr, DecidableEq

/-- detectDiagramType: keyword containment on the lower-cased first line.
The comparison strings are transcribed exactly as the source writes them;
the ones containing upper-case letters can never occur in the lower-cased
line, faithfully reproducing the source. -/
def detectDiagramType (code : List Char) : String :=
  let fl := lowerList (jsTrim ((splitNl code).getD 0 []))
  if containsSub "graph".data fl || containsSub "flowchart".data fl then
    "flowchart"
  else if containsSub "sequencediagram".data fl then "sequence"
  else if containsSub "classDiagram".data fl then "class"
  else if containsSub "stateDiagram".data fl then "state"
  else if containsSub "erDiagram".data fl then "er"
  else if containsSub "gantt".data fl then "gantt"
  else if containsSub "pie".data fl then "pie"
  else "unknown"

/-- Strip a leading hash run and following whitespace, then trim (the
heading-text extraction; its replace only fires on lines starting with a
hash). -/
def stripHeading (line : List Char) : List Char :=
  jsTrim (if "#".data.isPrefixOf line then
    (line.dropWhile (· = '#')).dropWhile isJsWs
  else line)

/-- The backward walk for a heading: called with index-plus-one, so the
call with k+1 inspects line k.  A heading line yields its stripped text;
a fence line, or an empty line whose predecessor is also empty, stops the
walk; otherwise the walk continues downward. -/
def nameWalk (lines : List (List Char)) : Nat → Option (List Char)
  | 0 => none
  | k + 1 =>
    if "#".data.isPrefixOf (jsTrim (lines.getD k [])) then
      some (stripHeading (jsTrim (lines.getD k [])))
    else if "```".data.isPrefixOf (jsTrim (lines.getD k [])) ||
        ((jsTrim (lines.getD k [])).isEmpty && decide (0 < k) &&
          (jsTrim (lines.getD (k - 1) [])).isEmpty) then none
    else nameWalk lines k

/-- The display name: the nearest preceding heading found by the walk
starting just above the block's start line, or the fallback. -/
def resolveName (lines : List (List Char)) (startLine : Nat)
    (type : String) : String :=
  match nameWalk lines startLine with
  | some n => String.mk n
  | none => type ++ " diagram"

/-- extractMermaidDiagrams: every fenced mermaid block, with its trimmed
code, detected type, resolved display name, and source span. -/
def extractMermaidDiagrams (markdown : String) : List MermaidDiagram :=
  let md := markdown.data
  let lines := splitNl md
  (jsMatchAll mermaidBlockRe md).map (fun m =>
    let code := jsTrim ((capLookup m.caps 1).getD [])
    let type := detectDiagramType code
    let startLine := countNl (md.take m.index)
    { type := type
      code := String.mk code
      name := resolveName lines startLine type
      span := ⟨m.index, m.index + m.matched.length⟩ })

/-! ## Saved-position overlay -/

/-- applySavedPositions: an undefined map returns the nodes unchanged;
otherwise each node whose id has a saved position gets exactly its
position replaced, all other nodes pass through unchanged. -/
def applySavedPositions (nodes : List RFNode)
    (saved : Option (String → Option XY)) : List RFNode :=
  match saved with
  | none => nodes
  | some m =>
    nodes.map (fun n =>
      match m n.id with
      | some p => { n with position := p }
      | none => n)

/-! ## Invariant of the flowchart scan state -/

/-- The ids of the accumulated nodes, in creation order. -/
def flowIds (st : FlowState) : List String :=
  st.nodes.map (·.id)

/-- The invariant maintained by every line of the flowchart scan: the
node-map keys are exactly the node ids (they are always pushed together),
node ids are unique, every recorded edge endpoint is an existing node id,
every subgraph member is an existing node id, each id occurs in at most
one subgraph member list (and at most once there), and every membership
is reflected in the member node's subgraph field. -/
structure FlowInv (st : FlowState) : Prop where
  map_eq : st.nodeMap = flowIds st
  nodup : (flowIds st).Nodup
  edges_closed : ∀ e ∈ st.edges,
    e.source ∈ flowIds st ∧ e.target ∈ flowIds st
  members_sub : ∀ sg ∈ st.subgraphs, ∀ x ∈ sg.nodes, x ∈ flowIds st
  members_nodup : ((st.subgraphs.map SubgraphInfo.nodes).flatten).Nodup
  members_field : ∀ sg ∈ st.subgraphs, ∀ x ∈ sg.nodes,
    ∃ n ∈ st.nodes, n.id = x ∧ n.subgraph = some sg.id

/-! ## Specification-side predicates for the extractor name walk -/

/-- A heading line in the claim's sense: after trimming it starts with a
run of hash marks. -/
def headingAt (lines : List (List Char)) (i : Nat) : Bool :=
  "#".data.isPrefixOf (jsTrim (lines.getD i []))

/-- A stopper in the claim's sense: a fence line, or a blank-line gap (an
empty line whose predecessor is also empty). -/
def stopAt (lines : List (List Char)) (i : Nat) : Bool :=
  "```".data.isPrefixOf (jsTrim (lines.getD i [])) ||
    ((jsTrim (lines.getD i [])).isEmpty && decide (0 < i) &&
      (jsTrim (lines.getD (i - 1) [])).isEmpty)

/-! ## Concrete inputs used by the evaluation theorems -/

/-- The sequence-diagram example of the specification. -/
def seqDemo : List MermaidNode × List MermaidEdge :=
  parseSequenceDiagram
    "sequenceDiagram\nparticipant Alice\nparticipant Bob\nAlice->>Bob: Hello"

/-- A default React Flow node, used as the out-of-range placeholder of
positional lookups. -/
def rfNodeDefault : RFNode :=
  { id := "", position := ⟨0, 0⟩ }

/-- A small valid scan state (one node already created), used by
witnesses of the step-level statements. -/
def demoState : FlowState :=
  { nodes := [{ id := "A", label := "A", shape := "rect" }],
    edges := [], subgraphs := [], nodeMap := ["A"],
    currentSubgraph := none }

/-- getD through a map, at an in-range index. -/
theorem getD_map_of_lt {α β : Type} (f : α → β) (l : List α) (i : Nat)
    (d : β) (e : α) (h : i < l.length) :
    (l.map f).getD i d = f (l.getD i e) := by
  induction l generalizing i with
  | nil => exact absurd h (by simp)
  | cons a t ih =>
    cases i with
    | zero => rfl
    | succ n => exact ih n (Nat.lt_of_succ_lt_succ h)

/-! # Theorems for the claims -/

/-- C1: for every input string the pipeline entry point
convertMermaidToReactFlow is a total function and never propagates a
fault: whenever the pipeline body (with the external layout library
abstracted as an arbitrary possibly-throwing computation) faults, the
entry point returns the empty result, and otherwise it returns the body's
result.  (In this embedding the parser is a total function; the only
fault source is the abstracted layout, matching the source where the
try block's catch converts any exception into an empty result.) -/
theorem conversion_fault_contained (phase12 : Phase12) (code : String) :
    (∃ e, convertPipeline phase12 code = .error e ∧
      convertMermaidToReactFlow phase12 code = ⟨[], []⟩) ∨
    (∃ r, convertPipeline phase12 code = .ok r ∧
      convertMermaidToReactFlow phase12 code = r) := by
  cases h : convertPipeline phase12 code with
  | error e => exact Or.inl ⟨e, rfl, by simp [convertMermaidToReactFlow, h]⟩
  | ok r => exact Or.inr ⟨r, rfl, by simp [convertMermaidToReactFlow, h]⟩

/-- C6: a parse with zero nodes makes the pipeline return the empty
graph (for any behaviour of the abstracted layout), and the concrete
input consisting only of the header line yields the empty parse — no
exception is possible since the entry point is a total function. -/
theorem empty_parse_returns_empty_graph :
    (∀ (phase12 : Phase12) (code : String),
      (parseMermaidCode code).nodes = [] →
      convertMermaidToReactFlow phase12 code = ⟨[], []⟩) ∧
    parseMermaidCode "graph TD" = ⟨[], [], []⟩ := by
  constructor
  · intro phase12 code h
    simp [convertMermaidToReactFlow, convertPipeline, h]
  · decide

/-- Witness for C6 at the concrete input and a faulting layout. -/
theorem empty_parse_returns_empty_graph_witness :
    convertMermaidToReactFlow (fun _ _ _ => Except.error "layout fault")
      "graph TD" = ⟨[], []⟩ :=
  empty_parse_returns_empty_graph.1 _ "graph TD" (by decide)

/-- C3: evaluation of shape inference.  The diamond half of the claim
holds.  The cascade getNodeShape itself, applied to a full bracketed
definition, realizes the claimed mapping (third through eighth
conjuncts).  But the parser extracts the definition with a bracket
pattern that stops at the first closing bracket, so a circle definition
reaches getNodeShape truncated: the parse of the circle input yields
shape round with label "(Start" instead of circle with label "Start",
and the stadium form similarly collapses to rect — the circle and
stadium branches are unreachable from the parser. -/
theorem shape_inference_truncation :
    (parseMermaidCode "graph TD\nA\x7bDecision\x7d").nodes =
      [{ id := "A", label := "Decision", shape := "diamond" }] ∧
    (parseMermaidCode "graph TD\nB((Start))").nodes =
      [{ id := "B", label := "(Start", shape := "round" }] ∧
    getNodeShape "A\x7bDecision\x7d".data = "diamond" ∧
    getNodeShape "B((Start))".data = "circle" ∧
    getNodeShape "C([X])".data = "stadium" ∧
    getNodeShape "D[X]".data = "rect" ∧
    getNodeShape "E(X)".data = "round" ∧
    getNodeShape "F".data = "rect" ∧
    (parseMermaidCode "graph TD\nC([X])").nodes =
      [{ id := "C", label := "[X", shape := "rect" }] := by
  decide

/-- C4: the sequence example.  Parsing yields the participants in
declaration order (header nodes with participant orders 0 and 1), one
header plus three lifeline points per participant (message count one plus
two boundary points, eight nodes in total), and exactly one labeled
message edge, placed at time slot 0, i.e. connecting the two
participants' first message-slot lifeline points (index 1, directly after
the top boundary point at index 0). -/
theorem sequence_parse_example :
    ((seqDemo.1.filter (fun n => "header_".data.isPrefixOf n.id.data)).map
      (fun n => (n.id, n.metadata.bind (·.participantOrder)))) =
      [("header_Alice", some 0), ("header_Bob", some 1)] ∧
    seqDemo.1.length = 8 ∧
    (seqDemo.1.filter
      (fun n => "lifeline_Alice_".data.isPrefixOf n.id.data)).length = 3 ∧
    (seqDemo.1.filter
      (fun n => "lifeline_Bob_".data.isPrefixOf n.id.data)).length = 3 ∧
    seqDemo.2.filter (fun e => jsTruthy e.label) =
      [{ source := "lifeline_Alice_1", target := "lifeline_Bob_1",
         label := some "Hello", type := "default" }] := by
  decide

/-- C7: the two same-pair edges with different labels survive parsing as
two distinct edges in encounter order, and for every choice of layout
maps the final assembly emits them as two distinct React Flow edges (ids
indexed by creation order) rather than merging them. -/
theorem edge_multiplicity_preserved :
    (parseMermaidCode "graph TD\nA-->|yes|B\nA-->|no|B").edges =
      [{ source := "A", target := "B", label := some "yes", type := "-->" },
       { source := "A", target := "B", label := some "no", type := "-->" }] ∧
    ∀ (sl : String → Option SubgraphLayoutBox) (sp stp : String → Option XY),
      ((createReactFlowElements
          (parseMermaidCode "graph TD\nA-->|yes|B\nA-->|no|B").nodes
          (parseMermaidCode "graph TD\nA-->|yes|B\nA-->|no|B").edges
          (parseMermaidCode "graph TD\nA-->|yes|B\nA-->|no|B").subgraphs
          sl sp stp).edges.map
        (fun e => (e.id, e.source, e.target, e.label))) =
      [("edge-A-B-0", "A", "B", some "yes"),
       ("edge-A-B-1", "A", "B", some "no")] := by
  refine ⟨by decide, ?_⟩
  intro sl sp stp
  rfl

/-- C10: applySavedPositions with an undefined map returns the node list
unchanged; with a map it preserves length and order, and the node at each
position is the input node with exactly its position field replaced by
the saved point when its id has one, and is unchanged otherwise. -/
theorem applySavedPositions_frame (nodes : List RFNode)
    (m : String → Option XY) (i : Nat) (h : i < nodes.length) :
    applySavedPositions nodes none = nodes ∧
    (applySavedPositions nodes (some m)).length = nodes.length ∧
    (applySavedPositions nodes (some m)).getD i rfNodeDefault =
      { nodes.getD i rfNodeDefault with
        position :=
          match m ((nodes.getD i rfNodeDefault).id) with
          | some p => p
          | none => (nodes.getD i rfNodeDefault).position } := by
  refine ⟨rfl, by simp [applySavedPositions], ?_⟩
  show (nodes.map _).getD i rfNodeDefault = _
  rw [getD_map_of_lt _ _ _ _ rfNodeDefault h]
  cases hm : m ((nodes.getD i rfNodeDefault).id) with
  | some p => simp [hm]
  | none => simp [hm]

/-- Witness for C10 at a concrete node list, map and index. -/
theorem applySavedPositions_frame_witness :
    applySavedPositions [rfNodeDefault] none = [rfNodeDefault] ∧
    (applySavedPositions [rfNodeDefault]
      (some (fun _ => some ⟨1, 2⟩))).length = [rfNodeDefault].length ∧
    (applySavedPositions [rfNodeDefault]
        (some (fun _ => some ⟨1, 2⟩))).getD 0 rfNodeDefault =
      { [rfNodeDefault].getD 0 rfNodeDefault with
        position :=
          match (fun _ => some (⟨1, 2⟩ : XY))
              (([rfNodeDefault].getD 0 rfNodeDefault).id) with
          | some p => p
          | none => ([rfNodeDefault].getD 0 rfNodeDefault).position } :=
  applySavedPositions_frame [rfNodeDefault] (fun _ => some ⟨1, 2⟩) 0
    (by decide)

/-! ## Preservation of the scan invariant -/

/-- A key absent from the node map is not a node id (under the map
invariant). -/
theorem not_mem_of_not_contains {l : List String} {a : String}
    (h : ¬ l.contains a = true) : a ∉ l := by
  intro hmem
  exact h (by simpa using hmem)

/-- Every entry of a member push is an input entry, possibly with the
pushed id appended (in which case the entry's id is the pushed target). -/
theorem pushToSubgraph_spec (sgs : List SubgraphInfo) (c x : String) :
    ∀ sg2 ∈ pushToSubgraph sgs c x, ∃ sg ∈ sgs,
      sg.id = sg2.id ∧
      (sg2.nodes = sg.nodes ∨ (sg2.nodes = sg.nodes ++ [x] ∧ sg2.id = c)) := by
  induction sgs with
  | nil =>
    intro sg2 h
    exact absurd h (by simp [pushToSubgraph])
  | cons sg rest ih =>
    intro sg2 h
    simp only [pushToSubgraph] at h
    by_cases hc : sg.id = c
    · rw [if_pos hc] at h
      rcases List.mem_cons.mp h with h | h
      · subst h
        exact ⟨sg, List.mem_cons_self _ _, rfl, Or.inr ⟨rfl, hc⟩⟩
      · exact ⟨sg2, List.mem_cons_of_mem _ h, rfl, Or.inl rfl⟩
    · rw [if_neg hc] at h
      rcases List.mem_cons.mp h with h | h
      · subst h
        exact ⟨sg2, List.mem_cons_self _ _, rfl, Or.inl rfl⟩
      · rcases ih sg2 h with ⟨sg0, hmem, h1, h2⟩
        exact ⟨sg0, List.mem_cons_of_mem _ hmem, h1, h2⟩

/-- A member push leaves the concatenated member lists unchanged or
inserts the pushed id at one position. -/
theorem pushToSubgraph_flatten (sgs : List SubgraphInfo) (c x : String) :
    ((pushToSubgraph sgs c x).map SubgraphInfo.nodes).flatten =
        (sgs.map SubgraphInfo.nodes).flatten ∨
    ∃ pre post, (sgs.map SubgraphInfo.nodes).flatten = pre ++ post ∧
      ((pushToSubgraph sgs c x).map SubgraphInfo.nodes).flatten =
        pre ++ x :: post := by
  induction sgs with
  | nil => exact Or.inl rfl
  | cons sg rest ih =>
    by_cases hc : sg.id = c
    · refine Or.inr ⟨sg.nodes, (rest.map SubgraphInfo.nodes).flatten,
        by simp, ?_⟩
      simp [pushToSubgraph, hc]
    · rcases ih with h | ⟨pre, post, h1, h2⟩
      · exact Or.inl (by simp [pushToSubgraph, hc, h])
      · refine Or.inr ⟨sg.nodes ++ pre, post, ?_, ?_⟩
        · simp [h1, List.append_assoc]
        · simp [pushToSubgraph, hc, h2, List.append_assoc]

/-- Node creation appends exactly the new id to the id list. -/
theorem flowIds_addNode (st : FlowState) (id label shape : String) :
    flowIds (addNode st id label shape) = flowIds st ++ [id] := by
  simp [addNode, flowIds]

/-- Node creation with a fresh id preserves the scan invariant. -/
theorem FlowInv_addNode {st : FlowState} (nid label shape : String)
    (h : FlowInv st) (hf : nid ∉ st.nodeMap) :
    FlowInv (addNode st nid label shape) := by
  have hids : nid ∉ flowIds st := by rw [h.map_eq] at hf; exact hf
  have hflat : nid ∉ (st.subgraphs.map SubgraphInfo.nodes).flatten := by
    intro hmem
    rcases List.mem_flatten.mp hmem with ⟨l, hl, hxl⟩
    rcases List.mem_map.mp hl with ⟨sg, hsg, hls⟩
    exact hids (h.members_sub sg hsg nid (hls ▸ hxl))
  refine ⟨?_, ?_, ?_, ?_, ?_, ?_⟩
  · show st.nodeMap ++ [nid] = flowIds (addNode st nid label shape)
    rw [flowIds_addNode, h.map_eq]
  · rw [flowIds_addNode]
    refine List.Nodup.append h.nodup (List.nodup_singleton nid) ?_
    intro a ha hb
    rw [List.mem_singleton] at hb
    subst hb
    exact hids ha
  · intro e he
    rw [flowIds_addNode]
    have := h.edges_closed e he
    exact ⟨List.mem_append_left _ this.1, List.mem_append_left _ this.2⟩
  · intro sg2 hsg2 y hy
    rw [flowIds_addNode]
    cases hcur : st.currentSubgraph with
    | none =>
      rw [show (addNode st nid label shape).subgraphs = st.subgraphs from
        by simp [addNode, hcur]] at hsg2
      exact List.mem_append_left _ (h.members_sub sg2 hsg2 y hy)
    | some c =>
      rw [show (addNode st nid label shape).subgraphs =
          pushToSubgraph st.subgraphs c nid from by simp [addNode, hcur]]
        at hsg2
      rcases pushToSubgraph_spec st.subgraphs c nid sg2 hsg2 with
        ⟨sg, hsg, hid2, hcase⟩
      rcases hcase with hnn | ⟨hnn, hjc⟩
      · rw [hnn] at hy
        exact List.mem_append_left _ (h.members_sub sg hsg y hy)
      · rw [hnn] at hy
        rcases List.mem_append.mp hy with hy | hy
        · exact List.mem_append_left _ (h.members_sub sg hsg y hy)
        · rw [List.mem_singleton] at hy
          subst hy
          exact List.mem_append_right _ (List.mem_singleton_self _)
  · cases hcur : st.currentSubgraph with
    | none =>
      rw [show (addNode st nid label shape).subgraphs = st.subgraphs from
        by simp [addNode, hcur]]
      exact h.members_nodup
    | some c =>
      rw [show (addNode st nid label shape).subgraphs =
          pushToSubgraph st.subgraphs c nid from by simp [addNode, hcur]]
      rcases pushToSubgraph_flatten st.subgraphs c nid with hfl |
        ⟨pre, post, h1, h2⟩
      · rw [hfl]; exact h.members_nodup
      · rw [h2]
        have hnd : (pre ++ post).Nodup := h1 ▸ h.members_nodup
        have hnotin : nid ∉ pre ++ post := h1 ▸ hflat
        rw [List.nodup_middle]
        exact List.nodup_cons.mpr ⟨hnotin, hnd⟩
  · intro sg2 hsg2 y hy
    cases hcur : st.currentSubgraph with
    | none =>
      rw [show (addNode st nid label shape).subgraphs = st.subgraphs from
        by simp [addNode, hcur]] at hsg2
      rcases h.members_field sg2 hsg2 y hy with ⟨n, hn, hny, hns⟩
      exact ⟨n, List.mem_append_left _ hn, hny, hns⟩
    | some c =>
      rw [show (addNode st nid label shape).subgraphs =
          pushToSubgraph st.subgraphs c nid from by simp [addNode, hcur]]
        at hsg2
      rcases pushToSubgraph_spec st.subgraphs c nid sg2 hsg2 with
        ⟨sg, hsg, hid2, hcase⟩
      rcases hcase with hnn | ⟨hnn, hjc⟩
      · rw [hnn] at hy
        rcases h.members_field sg hsg y hy with ⟨n, hn, hny, hns⟩
        exact ⟨n, List.mem_append_left _ hn, hny, by rw [hns, hid2]⟩
      · rw [hnn] at hy
        rcases List.mem_append.mp hy with hy | hy
        · rcases h.members_field sg hsg y hy with ⟨n, hn, hny, hns⟩
          exact ⟨n, List.mem_append_left _ hn, hny, by rw [hns, hid2]⟩
        · rw [List.mem_singleton] at hy
          refine ⟨{ id := nid, label := label, shape := shape,
                    subgraph := st.currentSubgraph }, ?_, ?_, ?_⟩
          · exact List.mem_append_right _ (List.mem_singleton_self _)
          · exact hy.symm
          · show st.currentSubgraph = some sg2.id
            rw [hcur, hjc]

/-- Node creation from a definition preserves the invariant. -/
theorem FlowInv_newNodeFromDef {st : FlowState} (nid : String)
    (nodeDef : List Char) (h : FlowInv st) (hf : nid ∉ st.nodeMap) :
    FlowInv (newNodeFromDef st nid nodeDef) :=
  FlowInv_addNode _ _ _ h hf

/-- Endpoint handling does not touch the edge list. -/
theorem ensureNode_edges (st : FlowState) (id : String)
    (line : List Char) : (ensureNode st id line).edges = st.edges := by
  unfold ensureNode
  split
  · rfl
  · split <;> rfl

/-- Endpoint handling only appends nodes. -/
theorem ensureNode_only_appends (st : FlowState) (id : String)
    (line : List Char) : st.nodes <+: (ensureNode st id line).nodes := by
  unfold ensureNode
  split
  · exact List.prefix_refl _
  · split <;> exact ⟨_, rfl⟩

/-- Endpoint handling preserves the invariant. -/
theorem ensureNode_inv {st : FlowState} (id : String) (line : List Char)
    (h : FlowInv st) : FlowInv (ensureNode st id line) := by
  unfold ensureNode
  split
  · exact h
  · next hni =>
    have hf : id ∉ st.nodeMap := not_mem_of_not_contains hni
    split
    · exact FlowInv_newNodeFromDef _ _ h hf
    · exact FlowInv_addNode _ _ _ h hf

/-- After endpoint handling the id is a node id. -/
theorem ensureNode_mem_ids {st : FlowState} (id : String)
    (line : List Char) (h : FlowInv st) :
    id ∈ flowIds (ensureNode st id line) := by
  unfold ensureNode
  split
  · next hc => rw [← h.map_eq]; simpa using hc
  · split
    · show id ∈ flowIds (newNodeFromDef st id _)
      unfold newNodeFromDef
      rw [flowIds_addNode]
      exact List.mem_append_right _ (List.mem_singleton_self _)
    · rw [flowIds_addNode]
      exact List.mem_append_right _ (List.mem_singleton_self _)

/-- Old ids survive endpoint handling. -/
theorem ensureNode_ids_subset (st : FlowState) (id : String)
    (line : List Char) :
    flowIds st ⊆ flowIds (ensureNode st id line) := by
  unfold flowIds
  exact ((ensureNode_only_appends st id line).map (·.id)).subset

/-- Subgraph opening preserves the invariant. -/
theorem FlowInv_openSubgraph {st : FlowState} (sgId title : String)
    (h : FlowInv st) : FlowInv (openSubgraph st sgId title) := by
  refine ⟨h.map_eq, h.nodup, h.edges_closed, ?_, ?_, ?_⟩
  · intro sg2 hsg2 y hy
    rcases List.mem_append.mp hsg2 with h2 | h2
    · exact h.members_sub sg2 h2 y hy
    · rw [List.mem_singleton] at h2
      subst h2
      exact absurd hy (by simp)
  · show ((st.subgraphs ++
      [({ id := sgId, title := title, nodes := [] } : SubgraphInfo)]).map
        SubgraphInfo.nodes).flatten.Nodup
    simpa using h.members_nodup
  · intro sg2 hsg2 y hy
    rcases List.mem_append.mp hsg2 with h2 | h2
    · exact h.members_field sg2 h2 y hy
    · rw [List.mem_singleton] at h2
      subst h2
      exact absurd hy (by simp)

/-- Closing a subgraph preserves the invariant. -/
theorem FlowInv_endLine {st : FlowState} (h : FlowInv st) :
    FlowInv { st with currentSubgraph := none } :=
  ⟨h.map_eq, h.nodup, h.edges_closed, h.members_sub, h.members_nodup,
   h.members_field⟩

/-- Recording an edge with existing endpoints preserves the invariant. -/
theorem FlowInv_edgePush {st : FlowState} (e : MermaidEdge)
    (h : FlowInv st) (hs : e.source ∈ flowIds st)
    (ht : e.target ∈ flowIds st) : FlowInv (edgePush st e) := by
  refine ⟨h.map_eq, h.nodup, ?_, h.members_sub, h.members_nodup,
    h.members_field⟩
  intro e2 he2
  rcases List.mem_append.mp he2 with he2 | he2
  · exact h.edges_closed e2 he2
  · rw [List.mem_singleton] at he2
    subst he2
    exact ⟨hs, ht⟩

/-- Edge lines preserve the invariant and only append nodes; the
recorded edge's endpoints exist because they were just ensured. -/
theorem FlowInv_addEdgeLine {st : FlowState} (line : List Char)
    (m : RegexMatch) (h : FlowInv st) :
    FlowInv (addEdgeLine st line m) ∧
      st.nodes <+: (addEdgeLine st line m).nodes := by
  have h1 := ensureNode_inv (String.mk ((capLookup m.caps 1).getD []))
    line h
  have h2 := ensureNode_inv (edgeTargetId m) line h1
  refine ⟨FlowInv_edgePush _ h2 ?_ ?_, ?_⟩
  · exact ensureNode_ids_subset _ _ _
      (ensureNode_mem_ids _ line h)
  · exact ensureNode_mem_ids _ line h1
  · show st.nodes <+:
      (ensureNode (ensureNode st _ line) (edgeTargetId m) line).nodes
    exact (ensureNode_only_appends _ _ _).trans
      (ensureNode_only_appends _ _ _)

/-- The bare-id fallback preserves the invariant and only appends. -/
theorem FlowInv_standaloneByPat2 {st : FlowState} (line : List Char)
    (h : FlowInv st) :
    FlowInv (standaloneByPat2 st line) ∧
      st.nodes <+: (standaloneByPat2 st line).nodes := by
  unfold standaloneByPat2
  split
  · split
    · exact ⟨h, List.prefix_refl _⟩
    · next hni =>
      exact ⟨FlowInv_newNodeFromDef _ _ h (not_mem_of_not_contains hni),
        ⟨_, rfl⟩⟩
  · exact ⟨h, List.prefix_refl _⟩

/-- Standalone lines preserve the invariant and only append. -/
theorem FlowInv_standaloneLine {st : FlowState} (line : List Char)
    (h : FlowInv st) :
    FlowInv (standaloneLine st line) ∧
      st.nodes <+: (standaloneLine st line).nodes := by
  unfold standaloneLine
  split
  · split
    · exact FlowInv_standaloneByPat2 line h
    · next hni =>
      exact ⟨FlowInv_newNodeFromDef _ _ h (not_mem_of_not_contains hni),
        ⟨_, rfl⟩⟩
  · exact FlowInv_standaloneByPat2 line h

/-- One scan line preserves the invariant and only appends nodes. -/
theorem flowStepCore_inv (st : FlowState) (line : List Char)
    (h : FlowInv st) :
    FlowInv (flowStepCore st line) ∧
      st.nodes <+: (flowStepCore st line).nodes := by
  unfold flowStepCore
  split
  · exact ⟨h, List.prefix_refl _⟩
  · split
    · exact ⟨FlowInv_openSubgraph _ _ h, List.prefix_refl _⟩
    · split
      · exact ⟨FlowInv_endLine h, List.prefix_refl _⟩
      · split
        · exact FlowInv_addEdgeLine _ _ h
        · exact FlowInv_standaloneLine _ h

/-- The raw-line scan step preserves the invariant and only appends. -/
theorem flowStep_inv (st : FlowState) (rawLine : List Char)
    (h : FlowInv st) :
    FlowInv (flowStep st rawLine) ∧
      st.nodes <+: (flowStep st rawLine).nodes :=
  flowStepCore_inv st (jsTrim rawLine) h

/-- The invariant holds of the whole scan. -/
theorem foldl_flowStep_inv (lines : List (List Char)) (st : FlowState)
    (h : FlowInv st) :
    FlowInv (lines.foldl flowStep st) ∧
      st.nodes <+: (lines.foldl flowStep st).nodes := by
  induction lines generalizing st with
  | nil => exact ⟨h, List.prefix_refl _⟩
  | cons l rest ih =>
    have step := flowStep_inv st l h
    have tail := ih (flowStep st l) step.1
    exact ⟨tail.1, step.2.trans tail.2⟩

/-- The empty state satisfies the invariant. -/
theorem flowInv_init : FlowInv initFlowState := by
  refine ⟨rfl, List.nodup_nil, ?_, ?_, ?_, ?_⟩ <;> simp [initFlowState]

/-- The demonstration state satisfies the invariant. -/
theorem flowInv_demo : FlowInv demoState := by
  refine ⟨rfl, ?_, ?_, ?_, ?_, ?_⟩ <;> simp [demoState, flowIds]

/-- On a non-sequence source the parse result is the final scan state. -/
theorem parseMermaidCode_eq_scan (code : String)
    (hseq : isSeqCode code = false) :
    parseMermaidCode code =
      ⟨(((flowLines code).drop 1).foldl flowStep initFlowState).nodes,
       (((flowLines code).drop 1).foldl flowStep initFlowState).edges,
       (((flowLines code).drop 1).foldl flowStep initFlowState).subgraphs⟩ := by
  simp [parseMermaidCode, hseq]

/-- C2: the edge line with an undefined endpoint auto-creates the
endpoint as a default rect node labeled with its id (concrete first
conjunct), and in every flowchart parse each recorded edge's source and
target ids are ids of nodes of the same parse (closure, second
conjunct). -/
theorem edge_endpoints_exist :
    parseMermaidCode "graph TD\nA --> B" =
      ⟨[{ id := "A", label := "A", shape := "rect" },
        { id := "B", label := "B", shape := "rect" }],
       [{ source := "A", target := "B", label := some "", type := "-->" }],
       []⟩ ∧
    ∀ code, isSeqCode code = false →
      ∀ e ∈ (parseMermaidCode code).edges,
        e.source ∈ (parseMermaidCode code).nodes.map (·.id) ∧
        e.target ∈ (parseMermaidCode code).nodes.map (·.id) := by
  constructor
  · decide
  · intro code hseq e he
    rw [parseMermaidCode_eq_scan code hseq] at he ⊢
    exact (foldl_flowStep_inv ((flowLines code).drop 1) initFlowState
      flowInv_init).1.edges_closed e he

/-- Witness for C2 at the concrete input and its edge. -/
theorem edge_endpoints_exist_witness :
    ("A" : String) ∈
        (parseMermaidCode "graph TD\nA --> B").nodes.map (·.id) ∧
    ("B" : String) ∈
        (parseMermaidCode "graph TD\nA --> B").nodes.map (·.id) :=
  edge_endpoints_exist.2 "graph TD\nA --> B" (by decide)
    { source := "A", target := "B", label := some "", type := "-->" }
    (by decide)

/-- C8: within one flowchart parse node ids are unique, and the scan
step never rewrites existing nodes: the previous nodes are a prefix of
the new node list, and any node of the new list whose id already existed
is one of the previous nodes (so a later definition of the same id adds
nothing and changes nothing - the first definition wins). -/
theorem node_ids_unique_first_wins :
    (∀ code, isSeqCode code = false →
      ((parseMermaidCode code).nodes.map (·.id)).Nodup) ∧
    (∀ (st : FlowState) (line : List Char), FlowInv st →
      st.nodes <+: (flowStep st line).nodes ∧
      ∀ n ∈ (flowStep st line).nodes,
        n.id ∈ flowIds st → n ∈ st.nodes) := by
  constructor
  · intro code hseq
    rw [parseMermaidCode_eq_scan code hseq]
    exact (foldl_flowStep_inv ((flowLines code).drop 1) initFlowState
      flowInv_init).1.nodup
  · intro st line h
    have step := flowStep_inv st line h
    refine ⟨step.2, ?_⟩
    intro n hn hid
    rcases step.2 with ⟨tail, htail⟩
    rw [← htail] at hn
    rcases List.mem_append.mp hn with hn | hn
    · exact hn
    · exfalso
      have hnodup : ((flowStep st line).nodes.map (·.id)).Nodup :=
        step.1.nodup
      rw [← htail, List.map_append] at hnodup
      exact List.disjoint_of_nodup_append hnodup hid
        (List.mem_map_of_mem _ hn)

/-- Witness for C8: parse-level uniqueness at a re-defining input, and
the step-level statement at a state already containing node A. -/
theorem node_ids_unique_first_wins_witness :
    ((parseMermaidCode
      "graph TD\nA[First]\nA\x7bSecond\x7d\nA --> B").nodes.map
        (·.id)).Nodup ∧
    demoState.nodes <+:
      (flowStep demoState "A --> B".data).nodes ∧
    ({ id := "A", label := "A", shape := "rect" } : MermaidNode) ∈
      demoState.nodes :=
  ⟨node_ids_unique_first_wins.1 _ (by decide),
   (node_ids_unique_first_wins.2 demoState "A --> B".data flowInv_demo).1,
   (node_ids_unique_first_wins.2 demoState "A --> B".data flowInv_demo).2
     { id := "A", label := "A", shape := "rect" } (by decide) (by decide)⟩

/-- C5: in the concrete subgraph example A and B are contained in S1 in
insertion order and C has no container (first conjunct); in every
flowchart parse each node id occurs in at most one subgraph member list
(and at most once there), and every membership is reflected by the
member node's container field naming that subgraph (second conjunct). -/
theorem subgraph_containment_flat :
    parseMermaidCode "graph TD\nsubgraph S1\nA --> B\nend\nC --> A" =
      ⟨[{ id := "A", label := "A", shape := "rect", subgraph := some "S1" },
        { id := "B", label := "B", shape := "rect", subgraph := some "S1" },
        { id := "C", label := "C", shape := "rect" }],
       [{ source := "A", target := "B", label := some "", type := "-->" },
        { source := "C", target := "A", label := some "", type := "-->" }],
       [{ id := "S1", title := "S1", nodes := ["A", "B"] }]⟩ ∧
    ∀ code, isSeqCode code = false →
      (((parseMermaidCode code).subgraphs.map
        SubgraphInfo.nodes).flatten).Nodup ∧
      ∀ sg ∈ (parseMermaidCode code).subgraphs, ∀ x ∈ sg.nodes,
        ∃ n ∈ (parseMermaidCode code).nodes,
          n.id = x ∧ n.subgraph = some sg.id := by
  constructor
  · decide
  · intro code hseq
    rw [parseMermaidCode_eq_scan code hseq]
    have hinv := (foldl_flowStep_inv ((flowLines code).drop 1)
      initFlowState flowInv_init).1
    exact ⟨hinv.members_nodup, hinv.members_field⟩

/-- Witness for C5 at the concrete input and the member A of S1. -/
theorem subgraph_containment_flat_witness :
    ((((parseMermaidCode
      "graph TD\nsubgraph S1\nA --> B\nend\nC --> A").subgraphs.map
        SubgraphInfo.nodes).flatten).Nodup) ∧
    ∃ n ∈ (parseMermaidCode
        "graph TD\nsubgraph S1\nA --> B\nend\nC --> A").nodes,
      n.id = "A" ∧ n.subgraph = some "S1" :=
  ⟨(subgraph_containment_flat.2 _ (by decide)).1,
   (subgraph_containment_flat.2
      "graph TD\nsubgraph S1\nA --> B\nend\nC --> A" (by decide)).2
     { id := "S1", title := "S1", nodes := ["A", "B"] } (by decide)
     "A" (by decide)⟩

/-! ## Characterization of the extractor name walk -/

/-- A heading at the inspected line ends the walk with its stripped
text. -/
theorem nameWalk_succ_heading {lines : List (List Char)} {k : Nat}
    (h : headingAt lines k = true) :
    nameWalk lines (k + 1) =
      some (stripHeading (jsTrim (lines.getD k []))) := by
  unfold headingAt at h
  simp only [nameWalk]
  rw [if_pos h]

/-- A stopper (and no heading) at the inspected line aborts the walk. -/
theorem nameWalk_succ_stop {lines : List (List Char)} {k : Nat}
    (h1 : headingAt lines k = false) (h2 : stopAt lines k = true) :
    nameWalk lines (k + 1) = none := by
  unfold headingAt at h1
  unfold stopAt at h2
  simp only [nameWalk]
  rw [if_neg (show ¬_ from by rw [h1]; simp), if_pos h2]

/-- Neither heading nor stopper: the walk continues downward. -/
theorem nameWalk_succ_cont {lines : List (List Char)} {k : Nat}
    (h1 : headingAt lines k = false) (h2 : stopAt lines k = false) :
    nameWalk lines (k + 1) = nameWalk lines k := by
  unfold headingAt at h1
  unfold stopAt at h2
  simp only [nameWalk]
  rw [if_neg (show ¬_ from by rw [h1]; simp), if_neg (show ¬_ from by rw [h2]; simp)]

/-- The walk from index-plus-one k either returns the stripped text of
the nearest heading below k with no heading and no stopper in between,
or returns nothing, having scanned a stopper-free heading-free range
down to a stopper (or to the start of the document). -/
theorem nameWalk_spec (lines : List (List Char)) (k : Nat) :
    (∃ j, j < k ∧ headingAt lines j = true ∧
      (∀ i2, j < i2 → i2 < k →
        headingAt lines i2 = false ∧ stopAt lines i2 = false) ∧
      nameWalk lines k =
        some (stripHeading (jsTrim (lines.getD j [])))) ∨
    (nameWalk lines k = none ∧
      ∃ cut, cut ≤ k ∧
        (∀ i2, cut ≤ i2 → i2 < k →
          headingAt lines i2 = false ∧ stopAt lines i2 = false) ∧
        (cut = 0 ∨ (stopAt lines (cut - 1) = true ∧
          headingAt lines (cut - 1) = false))) := by
  induction k with
  | zero =>
    right
    exact ⟨rfl, 0, Nat.le_refl 0,
      fun i2 h1 h2 => absurd h2 (Nat.not_lt_zero i2), Or.inl rfl⟩
  | succ k ih =>
    by_cases hh : headingAt lines k = true
    · left
      refine ⟨k, Nat.lt_succ_self k, hh, ?_, nameWalk_succ_heading hh⟩
      intro i2 h1 h2
      exact absurd (Nat.lt_of_lt_of_le h1 (Nat.le_of_lt_succ h2))
        (Nat.lt_irrefl k)
    · have hh2 : headingAt lines k = false := by
        simpa using hh
      by_cases hs : stopAt lines k = true
      · right
        refine ⟨nameWalk_succ_stop hh2 hs, k + 1, Nat.le_refl _, ?_, ?_⟩
        · intro i2 h1 h2
          exact absurd (Nat.lt_of_lt_of_le h2 h1) (Nat.lt_irrefl i2)
        · exact Or.inr ⟨by simpa using hs, by simpa using hh2⟩
      · have hs2 : stopAt lines k = false := by
          simpa using hs
        have hstep := nameWalk_succ_cont hh2 hs2
        rcases ih with ⟨j, hj, hhj, hrange, heq⟩ |
          ⟨heq, cut, hc1, hc2, hc3⟩
        · left
          refine ⟨j, Nat.lt_succ_of_lt hj, hhj, ?_, by rw [hstep]; exact heq⟩
          intro i2 h1 h2
          rcases Nat.lt_succ_iff_lt_or_eq.mp h2 with h2 | h2
          · exact hrange i2 h1 h2
          · subst h2
            exact ⟨hh2, hs2⟩
        · right
          refine ⟨by rw [hstep]; exact heq, cut,
            Nat.le_succ_of_le hc1, ?_, hc3⟩
          intro i2 h1 h2
          rcases Nat.lt_succ_iff_lt_or_eq.mp h2 with h2 | h2
          · exact hc2 i2 h1 h2
          · subst h2
            exact ⟨hh2, hs2⟩

/-- C9: the display name of every extracted block is resolved as the
claim describes, relative to the block's start line (the newline count
before its span start): either a nearest preceding heading exists - no
other heading and no stopper (fence line or blank-line gap, i.e. an
empty line directly preceded by an empty line) strictly between it and
the block - and the name is that heading's text with the hash run
stripped; or no heading is reached before a stopper or the document
start, and the name falls back to the type followed by " diagram". -/
theorem extract_name_resolution (md : String) (d : MermaidDiagram)
    (hd : d ∈ extractMermaidDiagrams md) :
    (∃ j, j < countNl (md.data.take d.span.start) ∧
      headingAt (splitNl md.data) j = true ∧
      (∀ i2, j < i2 → i2 < countNl (md.data.take d.span.start) →
        headingAt (splitNl md.data) i2 = false ∧
        stopAt (splitNl md.data) i2 = false) ∧
      d.name = String.mk (stripHeading
        (jsTrim ((splitNl md.data).getD j [])))) ∨
    (d.name = d.type ++ " diagram" ∧
      ∃ cut, cut ≤ countNl (md.data.take d.span.start) ∧
        (∀ i2, cut ≤ i2 → i2 < countNl (md.data.take d.span.start) →
          headingAt (splitNl md.data) i2 = false ∧
          stopAt (splitNl md.data) i2 = false) ∧
        (cut = 0 ∨ (stopAt (splitNl md.data) (cut - 1) = true ∧
          headingAt (splitNl md.data) (cut - 1) = false))) := by
  simp only [extractMermaidDiagrams] at hd
  rcases List.mem_map.mp hd with ⟨m, hm, hdm⟩
  subst hdm
  dsimp only
  rcases nameWalk_spec (splitNl md.data) (countNl (md.data.take m.index))
    with ⟨j, hj, hhj, hrange, heq⟩ | ⟨heq, cut, hc1, hc2, hc3⟩
  · left
    refine ⟨j, hj, hhj, hrange, ?_⟩
    show resolveName _ _ _ = _
    unfold resolveName
    rw [heq]
  · right
    refine ⟨?_, cut, hc1, hc2, hc3⟩
    show resolveName _ _ _ = _
    unfold resolveName
    rw [heq]

/-- Witness for C9 at a one-heading document and its extracted block. -/
theorem extract_name_resolution_witness :
    (∃ j, j < countNl
        (("# Title\n```mermaid\ngraph TD\n```" : String).data.take 8) ∧
      headingAt (splitNl
        ("# Title\n```mermaid\ngraph TD\n```" : String).data) j = true ∧
      (∀ i2, j < i2 → i2 < countNl
          (("# Title\n```mermaid\ngraph TD\n```" : String).data.take 8) →
        headingAt (splitNl
          ("# Title\n```mermaid\ngraph TD\n```" : String).data) i2 =
            false ∧
        stopAt (splitNl
          ("# Title\n```mermaid\ngraph TD\n```" : String).data) i2 =
            false) ∧
      ("Title" : String) = String.mk (stripHeading
        (jsTrim ((splitNl
          ("# Title\n```mermaid\ngraph TD\n```" : String).data).getD
            j [])))) ∨
    (("Title" : String) = "flowchart" ++ " diagram" ∧
      ∃ cut, cut ≤ countNl
          (("# Title\n```mermaid\ngraph TD\n```" : String).data.take 8) ∧
        (∀ i2, cut ≤ i2 → i2 < countNl
            (("# Title\n```mermaid\ngraph TD\n```" : String).data.take
              8) →
          headingAt (splitNl
            ("# Title\n```mermaid\ngraph TD\n```" : String).data) i2 =
              false ∧
          stopAt (splitNl
            ("# Title\n```mermaid\ngraph TD\n```" : String).data) i2 =
              false) ∧
        (cut = 0 ∨ (stopAt (splitNl
            ("# Title\n```mermaid\ngraph TD\n```" : String).data)
              (cut - 1) = true ∧
          headingAt (splitNl
            ("# Title\n```mermaid\ngraph TD\n```" : String).data)
              (cut - 1) = false))) :=
  extract_name_resolution "# Title\n```mermaid\ngraph TD\n```"
    { type := "flowchart", code := "graph TD", name := "Title",
      span := ⟨8, 31⟩ }
    (by decide)

end MermaidRF
